import Mathlib

/-!
Verification of the newsletter subscription intake guard of this repository:
the in-memory rate limiter, the bot heuristics and the response mapping of
`src/sites/web/src/app/api/subscribe/route.ts`, and the email validator of
the shared utilities module (`validateEmailAdvanced`).

Modelling conventions:
* Epoch-millisecond clock values (`Date.now()`) are `Int`, passed explicitly.
* The JavaScript `Map<string, RateLimitRecord>` is a function
  `String → Option RateLimitRecord`; `Map.set` is pointwise update.
* JavaScript string truthiness (`if (website)`) is `s ≠ ""` for a present
  string field, false for an absent (`undefined`) field.
* `undefined < 2000` is `false` in JavaScript; an absent `submissionTime`
  therefore never triggers the too-fast branch.
-/

/-- `RateLimitRecord` of the subscribe route: `{ count, lastAttempt }`. -/
structure RateLimitRecord where
  count : Nat
  lastAttempt : Int
deriving DecidableEq, Repr

/-- The in-memory `Map<string, RateLimitRecord>` cache, as a lookup function. -/
def RLCache : Type := String → Option RateLimitRecord

/-- `Map.set`: pointwise update of the cache. -/
def RLCache.set (cache : RLCache) (key : String) (v : RateLimitRecord) : RLCache :=
  fun k => if k = key then some v else cache k

/-- A fresh (empty) rate-limit table. -/
def RLCache.empty : RLCache := fun _ => none

/-- Result record of `checkRateLimit`. -/
structure CheckResult where
  limited : Bool
  remainingRequests : Int
  resetTime : Int
deriving DecidableEq, Repr

/-- `checkRateLimit(cache, key, maxRequests, windowMs)` of the subscribe route,
with the `Date.now()` reading passed in as `now`.  Returns the result together
with the mutated cache. -/
def checkRateLimit (cache : RLCache) (key : String) (maxRequests : Nat)
    (windowMs : Int) (now : Int) : CheckResult × RLCache :=
  match cache key with
  | none =>
      (⟨false, (maxRequests : Int) - 1, now + windowMs⟩,
       cache.set key ⟨1, now⟩)
  | some record =>
      if now - record.lastAttempt > windowMs then
        (⟨false, (maxRequests : Int) - 1, now + windowMs⟩,
         cache.set key ⟨1, now⟩)
      else
        -- record.count += 1; record.lastAttempt = now
        let count := record.count + 1
        (⟨decide ((count : Int) > (maxRequests : Int)),
          max 0 ((maxRequests : Int) - (count : Int)),
          now + windowMs⟩,
         cache.set key ⟨count, now⟩)

/-- One `checkRateLimit` invocation: its key, limits and clock reading. -/
structure RLCall where
  key : String
  maxRequests : Nat
  windowMs : Int
  now : Int

/-- Run a sequence of `checkRateLimit` calls, threading the cache. -/
def runCalls (cache : RLCache) : List RLCall → RLCache
  | [] => cache
  | c :: cs => runCalls (checkRateLimit cache c.key c.maxRequests c.windowMs c.now).2 cs

/-- The `limited` flags produced by a sequence of calls on one key with fixed
`maxRequests`/`windowMs`, given the list of clock readings. -/
def runFlags (cache : RLCache) (key : String) (maxRequests : Nat) (windowMs : Int) :
    List Int → List Bool
  | [] => []
  | t :: ts =>
      let r := checkRateLimit cache key maxRequests windowMs t
      r.1.limited :: runFlags r.2 key maxRequests windowMs ts

lemma RLCache.set_self (cache : RLCache) (key : String) (v : RateLimitRecord) :
    cache.set key v key = some v := by
  simp [RLCache.set]

lemma RLCache.set_other (cache : RLCache) (key k : String) (v : RateLimitRecord)
    (h : k ≠ key) : cache.set key v k = cache k := by
  simp [RLCache.set, h]

/-- After any `checkRateLimit` call, the key holds a record stamped `now`. -/
lemma checkRateLimit_cache_key (cache : RLCache) (key : String) (maxRequests : Nat)
    (windowMs now : Int) :
    ∃ c, (checkRateLimit cache key maxRequests windowMs now).2 key = some ⟨c, now⟩ := by
  unfold checkRateLimit
  match h : cache key with
  | none => exact ⟨1, by simp [h, RLCache.set_self]⟩
  | some record =>
      by_cases hw : now - record.lastAttempt > windowMs
      · exact ⟨1, by simp [h, hw, RLCache.set_self]⟩
      · exact ⟨record.count + 1, by simp [h, hw, RLCache.set_self]⟩

/-- A `checkRateLimit` call leaves other keys untouched. -/
lemma checkRateLimit_cache_other (cache : RLCache) (key k : String) (maxRequests : Nat)
    (windowMs now : Int) (h : k ≠ key) :
    (checkRateLimit cache key maxRequests windowMs now).2 k = cache k := by
  unfold checkRateLimit
  match hc : cache key with
  | none => simp [RLCache.set_other _ _ _ _ h]
  | some record =>
      by_cases hw : now - record.lastAttempt > windowMs
      · simp [hw, RLCache.set_other _ _ _ _ h]
      · simp [hw, RLCache.set_other _ _ _ _ h]

/-- C1: on a table with no record for the key, with `maxRequests = 1`, a first
call is not limited and a second call within the window is limited. -/
theorem checkRateLimit_twice_in_window (cache : RLCache) (key : String)
    (windowMs t1 t2 : Int) (hfresh : cache key = none)
    (h12 : t1 ≤ t2) (hwin : t2 - t1 ≤ windowMs) :
    (checkRateLimit cache key 1 windowMs t1).1.limited = false ∧
    (checkRateLimit (checkRateLimit cache key 1 windowMs t1).2 key 1 windowMs t2).1.limited
      = true := by
  constructor
  · unfold checkRateLimit
    simp [hfresh]
  · set c1 := (checkRateLimit cache key 1 windowMs t1).2 with hc1
    have hkey : c1 key = some ⟨1, t1⟩ := by
      rw [hc1]
      unfold checkRateLimit
      simp [hfresh, RLCache.set_self]
    have hnot : ¬ t2 - t1 > windowMs := not_lt.mpr hwin
    unfold checkRateLimit
    rw [hkey]
    simp [hnot]

/-- Witness for C1 at a concrete instant pair. -/
theorem checkRateLimit_twice_in_window_witness :
    (checkRateLimit RLCache.empty "a@b.c" 1 86400000 5).1.limited = false ∧
    (checkRateLimit (checkRateLimit RLCache.empty "a@b.c" 1 86400000 5).2
        "a@b.c" 1 86400000 17).1.limited = true :=
  checkRateLimit_twice_in_window RLCache.empty "a@b.c" 86400000 5 17 rfl
    (by norm_num) (by norm_num)

/-! ### Per-record evolution (claim C5) -/

/-- Every record in the table carries a `lastAttempt` stamp no later than `t`. -/
def TableLE (cache : RLCache) (t : Int) : Prop :=
  ∀ k r, cache k = some r → r.lastAttempt ≤ t

lemma TableLE.mono {cache : RLCache} {t t' : Int} (h : TableLE cache t) (htt : t ≤ t') :
    TableLE cache t' := fun k r hk => le_trans (h k r hk) htt

lemma TableLE.step {cache : RLCache} {t : Int} (h : TableLE cache t) (c : RLCall)
    (hct : c.now = t) :
    TableLE (checkRateLimit cache c.key c.maxRequests c.windowMs c.now).2 t := by
  intro k r hk
  by_cases hkey : k = c.key
  · subst hkey
    obtain ⟨cnt, hc⟩ := checkRateLimit_cache_key cache c.key c.maxRequests c.windowMs c.now
    rw [hc] at hk
    cases hk
    simpa using hct.le
  · rw [checkRateLimit_cache_other cache c.key k _ _ _ hkey] at hk
    exact h k r hk

lemma checkRateLimit_lastAttempt_mono {cache : RLCache} (c : RLCall) {k : String}
    {r : RateLimitRecord} (hk : cache k = some r) (hle : TableLE cache c.now) :
    ∃ r', (checkRateLimit cache c.key c.maxRequests c.windowMs c.now).2 k = some r' ∧
      r.lastAttempt ≤ r'.lastAttempt := by
  by_cases hkey : k = c.key
  · subst hkey
    obtain ⟨cnt, hc⟩ := checkRateLimit_cache_key cache c.key c.maxRequests c.windowMs c.now
    exact ⟨⟨cnt, c.now⟩, hc, hle c.key r hk⟩
  · exact ⟨r, by rw [checkRateLimit_cache_other cache c.key k _ _ _ hkey]; exact hk, le_refl _⟩

lemma runCalls_lastAttempt_mono : ∀ (calls : List RLCall) (cache : RLCache) (t0 : Int)
    (k : String) (r : RateLimitRecord),
    TableLE cache t0 → List.Chain' (· ≤ ·) (t0 :: calls.map RLCall.now) →
    cache k = some r →
    ∃ r', runCalls cache calls k = some r' ∧ r.lastAttempt ≤ r'.lastAttempt
  | [], cache, t0, k, r, _, _, hk => ⟨r, hk, le_refl _⟩
  | c :: cs, cache, t0, k, r, hle, hchain, hk => by
      have h1 : t0 ≤ c.now ∧ List.Chain' (· ≤ ·) (c.now :: cs.map RLCall.now) := by
        simpa [List.chain'_cons] using hchain
      have hle' : TableLE cache c.now := hle.mono h1.1
      obtain ⟨r1, hr1, hmono1⟩ := checkRateLimit_lastAttempt_mono c hk hle'
      have hstep : TableLE (checkRateLimit cache c.key c.maxRequests c.windowMs c.now).2
          c.now := hle'.step c rfl
      obtain ⟨r', hr', hmono2⟩ :=
        runCalls_lastAttempt_mono cs _ c.now k r1 hstep h1.2 hr1
      exact ⟨r', by simpa [runCalls] using hr', le_trans hmono1 hmono2⟩

/-- C5 counterexample: with a non-decreasing clock, a window expiry resets a
record from count 2 back to count 1, so `count` can decrease. -/
theorem rateLimit_count_decreases_counterexample :
    List.Chain' (· ≤ ·) [(0 : Int), 1, 86400002] ∧
    runCalls RLCache.empty
      [⟨"a@b.c", 1, 86400000, 0⟩, ⟨"a@b.c", 1, 86400000, 1⟩] "a@b.c"
      = some ⟨2, 1⟩ ∧
    runCalls RLCache.empty
      [⟨"a@b.c", 1, 86400000, 0⟩, ⟨"a@b.c", 1, 86400000, 1⟩,
       ⟨"a@b.c", 1, 86400000, 86400002⟩] "a@b.c"
      = some ⟨1, 86400002⟩ := by
  refine ⟨by norm_num [List.chain'_cons], by decide, by decide⟩

/-- C5 amended: within an unexpired window a call increments `count` (so it
never decreases except at an expiry, which resets the record to count 1), and
`lastAttempt` is monotonically non-decreasing across any call sequence whose
clock readings are non-decreasing and bound the table's existing stamps. -/
theorem rateLimitRecord_evolution :
    (∀ (cache : RLCache) (key : String) (maxRequests : Nat) (windowMs now : Int)
       (r : RateLimitRecord), cache key = some r → now - r.lastAttempt ≤ windowMs →
       (checkRateLimit cache key maxRequests windowMs now).2 key
         = some ⟨r.count + 1, now⟩) ∧
    (∀ (cache : RLCache) (key : String) (maxRequests : Nat) (windowMs now : Int)
       (r : RateLimitRecord), cache key = some r → now - r.lastAttempt > windowMs →
       (checkRateLimit cache key maxRequests windowMs now).2 key = some ⟨1, now⟩) ∧
    (∀ (calls : List RLCall) (cache : RLCache) (t0 : Int) (k : String)
       (r : RateLimitRecord),
       TableLE cache t0 → List.Chain' (· ≤ ·) (t0 :: calls.map RLCall.now) →
       cache k = some r →
       ∃ r', runCalls cache calls k = some r' ∧ r.lastAttempt ≤ r'.lastAttempt) := by
  refine ⟨?_, ?_, runCalls_lastAttempt_mono⟩
  · intro cache key maxRequests windowMs now r hk hwin
    unfold checkRateLimit
    rw [hk]
    simp [not_lt.mpr hwin, RLCache.set_self]
  · intro cache key maxRequests windowMs now r hk hwin
    unfold checkRateLimit
    rw [hk]
    simp [hwin, RLCache.set_self]

/-- Witness for the amended C5 theorem at concrete tables and calls. -/
theorem rateLimitRecord_evolution_witness :
    ((checkRateLimit (RLCache.empty.set "a@b.c" ⟨1, 0⟩) "a@b.c" 1 100 5).2 "a@b.c"
       = some ⟨2, 5⟩) ∧
    ((checkRateLimit (RLCache.empty.set "a@b.c" ⟨2, 0⟩) "a@b.c" 1 100 101).2 "a@b.c"
       = some ⟨1, 101⟩) ∧
    (∃ r', runCalls (RLCache.empty.set "a@b.c" ⟨3, 2⟩) [⟨"a@b.c", 1, 10, 5⟩] "a@b.c"
       = some r' ∧ (2 : Int) ≤ r'.lastAttempt) := by
  obtain ⟨h1, h2, h3⟩ := rateLimitRecord_evolution
  refine ⟨h1 _ _ 1 100 5 ⟨1, 0⟩ rfl (by norm_num),
          h2 _ _ 1 100 101 ⟨2, 0⟩ rfl (by norm_num),
          ?_⟩
  have htle : TableLE (RLCache.empty.set "a@b.c" ⟨3, 2⟩) 2 := by
    intro k r hk
    by_cases hkey : k = "a@b.c"
    · subst hkey
      rw [RLCache.set_self] at hk
      cases hk
      norm_num
    · rw [RLCache.set_other _ _ _ _ hkey] at hk
      cases hk
  have hchain : List.Chain' (· ≤ ·) ((2 : Int) :: [RLCall.mk "a@b.c" 1 10 5].map RLCall.now) := by
    norm_num [List.chain'_cons]
  exact h3 [⟨"a@b.c", 1, 10, 5⟩] _ 2 "a@b.c" ⟨3, 2⟩ htle hchain (RLCache.set_self _ _ _)

/-! ### Window-straddling bursts (claim C6) -/

lemma runFlags_length (cache : RLCache) (key : String) (maxRequests : Nat)
    (windowMs : Int) :
    ∀ ts : List Int, (runFlags cache key maxRequests windowMs ts).length = ts.length
  | [] => rfl
  | _ :: ts => by
      simp [runFlags, runFlags_length _ _ _ _ ts]

/-- Any `checkRateLimit` call leaves the key with a positive count stamped `now`. -/
lemma checkRateLimit_cache_key_pos (cache : RLCache) (key : String) (maxRequests : Nat)
    (windowMs now : Int) :
    ∃ c, 1 ≤ c ∧
      (checkRateLimit cache key maxRequests windowMs now).2 key = some ⟨c, now⟩ := by
  unfold checkRateLimit
  match h : cache key with
  | none => exact ⟨1, le_refl _, by simp [h, RLCache.set_self]⟩
  | some record =>
      by_cases hw : now - record.lastAttempt > windowMs
      · exact ⟨1, le_refl _, by simp [h, hw, RLCache.set_self]⟩
      · exact ⟨record.count + 1, by omega, by simp [h, hw, RLCache.set_self]⟩

/-- With `maxRequests = 1` and a key whose record is stamped `t0`, a later call
in the sequence can come back `limited = false` only more than `windowMs` after
`t0` and after every earlier call of the sequence. -/
lemma runFlags_false_gap : ∀ (ts : List Int) (cache : RLCache) (key : String)
    (windowMs t0 : Int) (c0 : Nat), 1 ≤ c0 → cache key = some ⟨c0, t0⟩ →
    List.Chain' (· ≤ ·) (t0 :: ts) →
    ∀ j, j < ts.length → (runFlags cache key 1 windowMs ts).getD j true = false →
    t0 + windowMs < ts.getD j 0 ∧
      ∀ i, i < j → ts.getD i 0 + windowMs < ts.getD j 0
  | [], _, _, _, _, _, _, _, _, j, hj, _ => absurd hj (by simp)
  | t :: ts, cache, key, windowMs, t0, c0, hc0, hrec, hchain, j, hj, hfalse => by
      have hch : t0 ≤ t ∧ List.Chain' (· ≤ ·) (t :: ts) := by
        simpa [List.chain'_cons] using hchain
      obtain ⟨c1, hc1, hrec1⟩ :=
        checkRateLimit_cache_key_pos cache key 1 windowMs t
      match j with
      | 0 =>
          refine ⟨?_, by omega⟩
          -- the head call returned `limited = false`: with count ≥ 1 already
          -- present, this forces the expired-window branch.
          simp only [runFlags, List.getD_cons_zero] at hfalse
          rw [checkRateLimit, hrec] at hfalse
          by_cases hw : t - t0 > windowMs
          · simp only [List.getD_cons_zero]
            omega
          · exfalso
            simp only [hw, if_false] at hfalse
            simp at hfalse
            omega
      | j' + 1 =>
          have hj' : j' < ts.length := by simpa using hj
          have hfalse' :
              (runFlags (checkRateLimit cache key 1 windowMs t).2 key 1 windowMs ts).getD
                j' true = false := by
            simpa [runFlags] using hfalse
          obtain ⟨hhead, hrest⟩ :=
            runFlags_false_gap ts (checkRateLimit cache key 1 windowMs t).2 key windowMs t
              c1 hc1 hrec1 hch.2 j' hj' hfalse'
          refine ⟨by simpa using lt_of_le_of_lt (by omega : t0 + windowMs ≤ t + windowMs) hhead, ?_⟩
          intro i hi
          match i with
          | 0 => simpa using hhead
          | i' + 1 =>
              have : i' < j' := by omega
              simpa using hrest i' this

/-- From a fresh table with `maxRequests = 1`, any two calls of a
non-decreasing-clock sequence that both return `limited = false` are more than
`windowMs` apart. -/
lemma runFlags_empty_gap (ts : List Int) (key : String) (windowMs : Int)
    (hchain : List.Chain' (· ≤ ·) ts) (i j : Nat) (hij : i < j) (hj : j < ts.length)
    (hfj : (runFlags RLCache.empty key 1 windowMs ts).getD j true = false) :
    ts.getD i 0 + windowMs < ts.getD j 0 := by
  match ts, j with
  | [], _ => simp at hj
  | t :: ts, j' + 1 =>
      obtain ⟨c1, hc1, hrec1⟩ :=
        checkRateLimit_cache_key_pos RLCache.empty key 1 windowMs t
      have hch : List.Chain' (· ≤ ·) (t :: ts) := hchain
      have hj' : j' < ts.length := by simpa using hj
      have hfj' :
          (runFlags (checkRateLimit RLCache.empty key 1 windowMs t).2 key 1 windowMs
            ts).getD j' true = false := by
        simpa [runFlags] using hfj
      obtain ⟨hhead, hrest⟩ :=
        runFlags_false_gap ts (checkRateLimit RLCache.empty key 1 windowMs t).2 key
          windowMs t c1 hc1 hrec1 hch j' hj' hfj'
      match i with
      | 0 => simpa using hhead
      | i' + 1 =>
          have : i' < j' := by omega
          simpa using hrest i' this

/-- C6 counterexample: the claimed window-straddling burst is impossible.  With
`maxRequests = 1` and `windowMs = 24h`, no non-decreasing sequence of clock
readings makes two `checkRateLimit` calls on the same key both return
`limited = false` less than `windowMs` apart: every attempt (accepted or
rejected) restamps `lastAttempt`, so the window never straddles a boundary. -/
theorem rateLimit_burst_impossible :
    ¬ ∃ (key : String) (ts : List Int) (i j : Nat),
      List.Chain' (· ≤ ·) ts ∧ i < j ∧ j < ts.length ∧
      (runFlags RLCache.empty key 1 86400000 ts).getD i true = false ∧
      (runFlags RLCache.empty key 1 86400000 ts).getD j true = false ∧
      ts.getD j 0 - ts.getD i 0 < 86400000 := by
  rintro ⟨key, ts, i, j, hchain, hij, hj, _, hfj, hlt⟩
  have := runFlags_empty_gap ts key 86400000 hchain i j hij hj hfj
  omega

/-- C6 amended: with `maxRequests = 1` and `windowMs = 24h`, any two calls on
the same key that both return `limited = false` under a non-decreasing clock
are strictly more than `windowMs` apart — the limiter refreshes its window on
every attempt, so it is stricter than a fixed-window counter, not looser. -/
theorem rateLimit_accepted_calls_gap (key : String) (ts : List Int) (i j : Nat)
    (hchain : List.Chain' (· ≤ ·) ts) (hij : i < j) (hj : j < ts.length)
    (hfi : (runFlags RLCache.empty key 1 86400000 ts).getD i true = false)
    (hfj : (runFlags RLCache.empty key 1 86400000 ts).getD j true = false) :
    86400000 < ts.getD j 0 - ts.getD i 0 := by
  have := runFlags_empty_gap ts key 86400000 hchain i j hij hj hfj
  omega

/-- Witness for the amended C6 theorem on a concrete two-call trace. -/
theorem rateLimit_accepted_calls_gap_witness :
    (86400000 : Int) < [(0 : Int), 86400001].getD 1 0 - [(0 : Int), 86400001].getD 0 0 :=
  rateLimit_accepted_calls_gap "a@b.c" [0, 86400001] 0 1
    (by norm_num [List.chain'_cons]) (by norm_num) (by norm_num)
    (by decide) (by decide)

/-! ### The subscribe POST handler -/

/-- Code points matched by JavaScript regex `\s` (and removed by `trim`). -/
def jsWhitespaceVals : List Nat :=
  [9, 10, 11, 12, 13, 32, 160, 0x1680, 0x2000, 0x2001, 0x2002, 0x2003, 0x2004,
   0x2005, 0x2006, 0x2007, 0x2008, 0x2009, 0x200A, 0x2028, 0x2029, 0x202F,
   0x205F, 0x3000, 0xFEFF]

/-- JavaScript `\s` character test. -/
def jsWhitespace (c : Char) : Bool := jsWhitespaceVals.contains c.toNat

/-- `String.prototype.trim`. -/
def jsTrim (l : List Char) : List Char :=
  ((l.dropWhile jsWhitespace).reverse.dropWhile jsWhitespace).reverse

/-- `toLowerCase`, on the ASCII range the validator's patterns can match. -/
def lowerChar (c : Char) : Char :=
  if 65 ≤ c.toNat ∧ c.toNat ≤ 90 then Char.ofNat (c.toNat + 32) else c

/-- Split a character list at every occurrence of `sep` (like `String.split`). -/
def splitOnChar (sep : Char) : List Char → List (List Char)
  | [] => [[]]
  | c :: rest =>
      if c = sep then [] :: splitOnChar sep rest
      else
        match splitOnChar sep rest with
        | [] => [[c]]
        | p :: ps => (c :: p) :: ps

/-- `[^\s@]+\.[^\s@]+` needs a `.` that is neither the first nor the last
character of the domain: some non-final position after the head holds a dot. -/
def hasDotBeforeLast : List Char → Bool
  | [] => false
  | [_] => false
  | c :: rest => (c == '.') || hasDotBeforeLast rest

/-- The domain of `EMAIL_REGEX` contains an inner dot. -/
def hasInnerDot : List Char → Bool
  | [] => false
  | _ :: rest => hasDotBeforeLast rest

/-- `EMAIL_REGEX = /^[^\s@]+@[^\s@]+\.[^\s@]+$/` of the subscribe route.  Both
character classes exclude `@`, so a match has exactly one `@`; the part before
it is non-empty and whitespace-free, the part after it is whitespace-free with
a dot that is neither its first nor its last character. -/
def EMAIL_REGEX_test (email : String) : Bool :=
  match splitOnChar '@' email.toList with
  | [l, d] =>
      (!l.isEmpty) && l.all (fun c => !jsWhitespace c) &&
        d.all (fun c => !jsWhitespace c) && hasInnerDot d
  | _ => false

/-- Does `needle` occur at the head of `hay`? -/
def listStartsWith : List Char → List Char → Bool
  | [], _ => true
  | _ :: _, [] => false
  | c :: cs, h :: hs => (c == h) && listStartsWith cs hs

/-- Does `p` hold at some suffix position of the list? -/
def anyPosition (p : List Char → Bool) : List Char → Bool
  | [] => p []
  | c :: rest => p (c :: rest) || anyPosition p rest

/-- Unanchored substring test, as a `RegExp.test` of a literal pattern. -/
def containsSub (needle hay : List Char) : Bool :=
  anyPosition (listStartsWith needle) hay

/-- `/\d{8,}@/`: eight digits immediately followed by `@` at this position. -/
def digitsThenAt (suf : List Char) : Bool :=
  ((suf.take 8).length == 8) && (suf.take 8).all Char.isDigit &&
    (match suf.drop 8 with
     | c :: _ => c == '@'
     | [] => false)

/-- `/[a-z0-9]{20,}@/i`: twenty case-folded alphanumerics then `@`. -/
def alnum20ThenAt (suf : List Char) : Bool :=
  ((suf.take 20).length == 20) &&
    (suf.take 20).all (fun c => c.isDigit || (97 ≤ c.toNat && c.toNat ≤ 122)) &&
    (match suf.drop 20 with
     | c :: _ => c == '@'
     | [] => false)

/-- `isSpamEmail`: `SPAM_EMAIL_PATTERNS.some(p => p.test(email))` of the
subscribe route; the `/i` flag is modelled by case-folding the subject. -/
def isSpamEmail (email : String) : Bool :=
  let e := email.toList.map lowerChar
  containsSub "test@test".toList e ||
  containsSub "example@".toList e ||
  anyPosition digitsThenAt e ||
  (containsSub "@example".toList e || containsSub "@test".toList e ||
   containsSub "@temp".toList e || containsSub "@fake".toList e) ||
  anyPosition alnum20ThenAt e

/-- `NAME_REGEX = /^[a-zA-Z\s'-]{0,50}$/` of the subscribe route. -/
def NAME_REGEX_test (name : String) : Bool :=
  name.toList.length ≤ 50 &&
    name.toList.all (fun c => c.isAlpha || jsWhitespace c || c.toNat == 39 || c == '-')

/-- The parsed JSON request body of the subscribe route.  Absent fields are
`none`; present string fields are `some`. -/
structure SubscribeBody where
  email : Option String
  name : Option String
  interests : Option String
  website : Option String
  submissionTime : Option Int

/-- JavaScript truthiness of a possibly-absent string. -/
def jsTruthy : Option String → Bool
  | none => false
  | some s => !(s == "")

/-- `submissionTime < RATE_LIMIT.MIN_SUBMISSION_TIME_MS`: comparing an absent
(`undefined`) value is `false` in JavaScript. -/
def tooFast : Option Int → Bool
  | none => false
  | some v => decide (v < 2000)

/-- `name && !NAME_REGEX.test(name)`. -/
def nameRejected : Option String → Bool
  | none => false
  | some nm => (!(nm == "")) && (!(NAME_REGEX_test nm))

/-- A response body: `{success: true}` or `{error: ...}`. -/
inductive RespBody
  | success
  | errorMsg (msg : String)
deriving DecidableEq, Repr

/-- A `NextResponse.json` value: status code plus body. -/
structure Resp where
  status : Nat
  body : RespBody
deriving DecidableEq, Repr

/-- The parsed provider response body; `errors` is carried in its
`JSON.stringify` form when the field is truthy. -/
structure ProviderData where
  message : Option String
  errors : Option String
deriving DecidableEq, Repr

/-- Outcome of the `fetch` to the provider: the promise rejected, or a
response arrived with a status and a JSON body (`none` when `response.json()`
throws). -/
inductive UpstreamOutcome
  | fetchThrew
  | responded (status : Nat) (parsed : Option ProviderData)

/-- The error-message selection of the non-2xx branch: prefer a truthy
`data.message`, else status-specific text for 401/429/422, else
`'Unknown error'`. -/
def providerErrorMessage (status : Nat) (data : ProviderData) : String :=
  match data.message with
  | some m => if m == "" then providerFallbackMessage status data else m
  | none => providerFallbackMessage status data
where
  providerFallbackMessage (status : Nat) (data : ProviderData) : String :=
    if status == 401 then "Invalid API key"
    else if status == 429 then "Rate limit exceeded"
    else if status == 422 then
      match data.errors with
      | some e => e
      | none => "Validation error"
    else "Unknown error"

/-- The provider-response mapping of the subscribe route: a rejected `fetch`
is caught as a generic 500; a parse failure of the response body substitutes
`{message: 'Failed to parse response'}`; `response.ok` (status 200–299) yields
`{success: true}`, anything else the selected error message under the
provider's status. -/
def mapProviderResponse : UpstreamOutcome → Resp
  | .fetchThrew => ⟨500, .errorMsg "Network error. Please try again later."⟩
  | .responded status parsed =>
      let data : ProviderData :=
        match parsed with
        | some d => d
        | none => ⟨some "Failed to parse response", none⟩
      if 200 ≤ status ∧ status ≤ 299 then ⟨200, .success⟩
      else ⟨status, .errorMsg ("Subscription failed: " ++ providerErrorMessage status data)⟩

/-- The subscriber payload sent upstream: email, plus `fields.name` when the
name is truthy with non-blank trim, plus `fields.interests` when truthy. -/
structure SubscriberData where
  email : String
  nameField : Option String
  interests : Option String
deriving DecidableEq, Repr

/-- Payload construction of the subscribe route. -/
def buildSubscriberData (email : String) (name interests : Option String) :
    SubscriberData where
  email := email
  nameField :=
    match name with
    | some nm => if (!(nm == "")) && (!(jsTrim nm.toList).isEmpty) then some nm else none
    | none => none
  interests :=
    match interests with
    | some i => if !(i == "") then some i else none
    | none => none

/-- Result of one `POST` invocation: the HTTP response, the rate-limit table
afterwards, whether the upstream `fetch` was issued, and with which payload. -/
structure PostResult where
  resp : Resp
  cache : RLCache
  upstreamCalled : Bool
  payload : Option SubscriberData

/-- The `POST` handler of `src/sites/web/src/app/api/subscribe/route.ts`, over
an already-parsed body.  The environment credential, the upstream outcome and
the clock are explicit parameters. -/
def POST (apiKey : Option String) (upstream : UpstreamOutcome) (cache : RLCache)
    (now : Int) (b : SubscribeBody) : PostResult :=
  -- 1. honeypot
  if jsTruthy b.website then ⟨⟨200, .success⟩, cache, false, none⟩
  -- 2. submission time
  else if tooFast b.submissionTime then ⟨⟨200, .success⟩, cache, false, none⟩
  else
    match b.email with
    -- 3. `!email || !EMAIL_REGEX.test(email)`
    | none => ⟨⟨400, .errorMsg "Please provide a valid email address"⟩, cache, false, none⟩
    | some email =>
      if (email == "") || !(EMAIL_REGEX_test email) then
        ⟨⟨400, .errorMsg "Please provide a valid email address"⟩, cache, false, none⟩
      -- 4. spam patterns
      else if isSpamEmail email then ⟨⟨200, .success⟩, cache, false, none⟩
      -- 5. name
      else if nameRejected b.name then
        ⟨⟨400, .errorMsg
            "Please provide a valid name (letters, spaces, hyphens, and apostrophes only)"⟩,
          cache, false, none⟩
      else
        -- 7. email rate limit (raw `email` is the key)
        let rl := checkRateLimit cache email 1 86400000 now
        if rl.1.limited then
          ⟨⟨429, .errorMsg "This email address has already been submitted recently."⟩,
            rl.2, false, none⟩
        -- missing credential
        else if !(jsTruthy apiKey) then
          ⟨⟨500, .errorMsg
              "Newsletter service not configured. Please add MAILERLITE_API_KEY to .env.local"⟩,
            rl.2, false, none⟩
        else
          ⟨mapProviderResponse upstream, rl.2, true,
            some (buildSubscriberData email b.name b.interests)⟩

/-! ### Branch lemmas for `checkRateLimit` -/

lemma checkRateLimit_none (cache : RLCache) (key : String) (maxRequests : Nat)
    (windowMs now : Int) (h : cache key = none) :
    checkRateLimit cache key maxRequests windowMs now =
      (⟨false, (maxRequests : Int) - 1, now + windowMs⟩, cache.set key ⟨1, now⟩) := by
  unfold checkRateLimit
  rw [h]

lemma checkRateLimit_relimit (cache : RLCache) (key : String) (windowMs now : Int)
    (c : Nat) (t : Int) (h : cache key = some ⟨c, t⟩) (hc : 1 ≤ c)
    (hw : now - t ≤ windowMs) :
    (checkRateLimit cache key 1 windowMs now).1.limited = true ∧
    (checkRateLimit cache key 1 windowMs now).2 = cache.set key ⟨c + 1, now⟩ := by
  constructor
  · unfold checkRateLimit
    rw [h]
    simp [not_lt.mpr hw]
    omega
  · unfold checkRateLimit
    rw [h]
    simp [not_lt.mpr hw]

/-! ### Claims about the POST handler -/

/-- C3: a non-empty honeypot `website` field yields a fabricated
`{success: true}` with status 200, leaves the rate-limit table untouched and
issues no upstream call, regardless of every other field. -/
theorem honeypot_fabricated_success (apiKey : Option String)
    (upstream : UpstreamOutcome) (cache : RLCache) (now : Int) (b : SubscribeBody)
    (s : String) (hws : b.website = some s) (hs : s ≠ "") :
    POST apiKey upstream cache now b = ⟨⟨200, .success⟩, cache, false, none⟩ := by
  have ht : jsTruthy b.website = true := by
    rw [hws]
    simpa [jsTruthy] using hs
  unfold POST
  rw [ht]
  simp

/-- Witness for C3: honeypot filled, email invalid, yet `{success: true}`. -/
theorem honeypot_fabricated_success_witness :
    POST none .fetchThrew RLCache.empty 0
        ⟨some "not-an-email", none, none, some "http://spam.example", some 1⟩ =
      ⟨⟨200, .success⟩, RLCache.empty, false, none⟩ :=
  honeypot_fabricated_success none .fetchThrew RLCache.empty 0
    ⟨some "not-an-email", none, none, some "http://spam.example", some 1⟩
    "http://spam.example" rfl (by decide)

/-- C7: an empty honeypot with `submissionTime = 500` (below the 2000 ms
minimum) yields `{success: true}` with status 200, no upstream call and no
rate-limit mutation. -/
theorem tooFast_fabricated_success (apiKey : Option String)
    (upstream : UpstreamOutcome) (cache : RLCache) (now : Int) (b : SubscribeBody)
    (hws : jsTruthy b.website = false) (hst : b.submissionTime = some 500) :
    POST apiKey upstream cache now b = ⟨⟨200, .success⟩, cache, false, none⟩ := by
  unfold POST
  rw [hws, hst]
  simp [tooFast]

/-- Witness for C7 on a fully valid body that is merely too fast. -/
theorem tooFast_fabricated_success_witness :
    POST (some "key") .fetchThrew RLCache.empty 0
        ⟨some "new.user@gmail.com", none, none, none, some 500⟩ =
      ⟨⟨200, .success⟩, RLCache.empty, false, none⟩ :=
  tooFast_fabricated_success (some "key") .fetchThrew RLCache.empty 0
    ⟨some "new.user@gmail.com", none, none, none, some 500⟩ rfl rfl

/-- C9: a body without a `submissionTime` field is not treated as too fast
(`undefined < 2000` is `false`), and an otherwise valid request reaches the
upstream forwarder. -/
theorem missing_submissionTime_proceeds (apiKey : Option String)
    (upstream : UpstreamOutcome) (cache : RLCache) (now : Int) (b : SubscribeBody)
    (e : String) (hws : jsTruthy b.website = false) (hst : b.submissionTime = none)
    (he : b.email = some e) (hne : (e == "") = false)
    (hreg : EMAIL_REGEX_test e = true) (hspam : isSpamEmail e = false)
    (hname : nameRejected b.name = false)
    (hrl : (checkRateLimit cache e 1 86400000 now).1.limited = false)
    (hkey : jsTruthy apiKey = true) :
    POST apiKey upstream cache now b =
      ⟨mapProviderResponse upstream, (checkRateLimit cache e 1 86400000 now).2, true,
        some (buildSubscriberData e b.name b.interests)⟩ := by
  unfold POST
  rw [hws, hst, he]
  simp [tooFast, hne, hreg, hspam, hname, hrl, hkey]

/-- Witness for C9: no `submissionTime`, valid email, upstream reached. -/
theorem missing_submissionTime_proceeds_witness :
    POST (some "key") (.responded 200 (some ⟨none, none⟩)) RLCache.empty 0
        ⟨some "new.user@gmail.com", none, none, none, none⟩ =
      ⟨mapProviderResponse (.responded 200 (some ⟨none, none⟩)),
        (checkRateLimit RLCache.empty "new.user@gmail.com" 1 86400000 0).2, true,
        some (buildSubscriberData "new.user@gmail.com" none none)⟩ :=
  missing_submissionTime_proceeds (some "key") (.responded 200 (some ⟨none, none⟩))
    RLCache.empty 0 ⟨some "new.user@gmail.com", none, none, none, none⟩
    "new.user@gmail.com" rfl rfl rfl (by decide) (by decide) (by decide) rfl
    (by decide) rfl

/-- C10: the rate-limit check precedes the credential check, so a request that
fails with the 500 missing-credential error still consumes the email's single
per-window slot, and an immediate retry with the same email receives 429. -/
theorem rateLimit_consumed_before_credential_error (apiKey : Option String)
    (upstream : UpstreamOutcome) (cache : RLCache) (t1 t2 : Int) (b : SubscribeBody)
    (e : String) (hws : jsTruthy b.website = false)
    (hst : tooFast b.submissionTime = false) (he : b.email = some e)
    (hne : (e == "") = false) (hreg : EMAIL_REGEX_test e = true)
    (hspam : isSpamEmail e = false) (hname : nameRejected b.name = false)
    (hfresh : cache e = none) (hkey : jsTruthy apiKey = false)
    (h12 : t1 ≤ t2) (hwin : t2 - t1 ≤ 86400000) :
    (POST apiKey upstream cache t1 b).resp.status = 500 ∧
    (POST apiKey upstream cache t1 b).cache e = some ⟨1, t1⟩ ∧
    (POST apiKey upstream (POST apiKey upstream cache t1 b).cache t2 b).resp =
      ⟨429, .errorMsg "This email address has already been submitted recently."⟩ := by
  have h1 := checkRateLimit_none cache e 1 86400000 t1 hfresh
  have hfirst : POST apiKey upstream cache t1 b =
      ⟨⟨500, .errorMsg
          "Newsletter service not configured. Please add MAILERLITE_API_KEY to .env.local"⟩,
        cache.set e ⟨1, t1⟩, false, none⟩ := by
    unfold POST
    rw [hws, he]
    simp [hst, hne, hreg, hspam, hname, h1, hkey]
  have h2 := checkRateLimit_relimit (cache.set e ⟨1, t1⟩) e 86400000 t2 1 t1
    (RLCache.set_self cache e ⟨1, t1⟩) (le_refl 1) (by omega)
  have hsecond : POST apiKey upstream (cache.set e ⟨1, t1⟩) t2 b =
      ⟨⟨429, .errorMsg "This email address has already been submitted recently."⟩,
        (checkRateLimit (cache.set e ⟨1, t1⟩) e 1 86400000 t2).2, false, none⟩ := by
    unfold POST
    rw [hws, he]
    simp [hst, hne, hreg, hspam, hname, h2.1]
  rw [hfirst]
  exact ⟨rfl, RLCache.set_self cache e ⟨1, t1⟩, by rw [hsecond]⟩

/-- Witness for C10 on a concrete email and clock pair. -/
theorem rateLimit_consumed_before_credential_error_witness :
    (POST none .fetchThrew RLCache.empty 0
        ⟨some "new.user@gmail.com", none, none, none, some 3000⟩).resp.status = 500 ∧
    (POST none .fetchThrew RLCache.empty 0
        ⟨some "new.user@gmail.com", none, none, none, some 3000⟩).cache
        "new.user@gmail.com" = some ⟨1, 0⟩ ∧
    (POST none .fetchThrew
        (POST none .fetchThrew RLCache.empty 0
          ⟨some "new.user@gmail.com", none, none, none, some 3000⟩).cache 60000
        ⟨some "new.user@gmail.com", none, none, none, some 3000⟩).resp =
      ⟨429, .errorMsg "This email address has already been submitted recently."⟩ :=
  rateLimit_consumed_before_credential_error none .fetchThrew RLCache.empty 0 60000
    ⟨some "new.user@gmail.com", none, none, none, some 3000⟩ "new.user@gmail.com"
    rfl rfl rfl (by decide) (by decide) (by decide) rfl rfl rfl
    (by norm_num) (by norm_num)

/-- C2 counterexample: the rate-limit table is keyed by the raw email string,
not a normalized one.  Two submissions whose emails differ only in letter case
are counted against different records: the second one inside the window is
forwarded with `{success: true}`, not rate-limited, and the table holds no
record under the second spelling after the first call. -/
theorem rateLimit_not_normalized_counterexample :
    (POST (some "key") (.responded 200 (some ⟨none, none⟩)) RLCache.empty 0
        ⟨some "Ab@cd.ef", none, none, none, some 3000⟩).resp = ⟨200, .success⟩ ∧
    (POST (some "key") (.responded 200 (some ⟨none, none⟩))
        (POST (some "key") (.responded 200 (some ⟨none, none⟩)) RLCache.empty 0
          ⟨some "Ab@cd.ef", none, none, none, some 3000⟩).cache 1
        ⟨some "ab@cd.ef", none, none, none, some 3000⟩).resp = ⟨200, .success⟩ ∧
    (POST (some "key") (.responded 200 (some ⟨none, none⟩)) RLCache.empty 0
        ⟨some "Ab@cd.ef", none, none, none, some 3000⟩).cache "ab@cd.ef" = none := by
  exact ⟨by decide, by decide, by decide⟩

/-- C2 amended: the fixed-window counter is keyed by the raw email string as
received.  Two requests with distinct email strings — even case variants of
one address — use distinct records: with both keys fresh, neither request is
rate-limited and both reach the upstream forwarder. -/
theorem rateLimit_keyed_by_raw_email (apiKey : Option String)
    (up1 up2 : UpstreamOutcome) (cache : RLCache) (t1 t2 : Int)
    (b1 b2 : SubscribeBody) (e1 e2 : String)
    (hws1 : jsTruthy b1.website = false) (hst1 : tooFast b1.submissionTime = false)
    (he1 : b1.email = some e1) (hne1 : (e1 == "") = false)
    (hreg1 : EMAIL_REGEX_test e1 = true) (hspam1 : isSpamEmail e1 = false)
    (hname1 : nameRejected b1.name = false)
    (hws2 : jsTruthy b2.website = false) (hst2 : tooFast b2.submissionTime = false)
    (he2 : b2.email = some e2) (hne2 : (e2 == "") = false)
    (hreg2 : EMAIL_REGEX_test e2 = true) (hspam2 : isSpamEmail e2 = false)
    (hname2 : nameRejected b2.name = false)
    (hne : e2 ≠ e1) (hfresh1 : cache e1 = none) (hfresh2 : cache e2 = none)
    (hkey : jsTruthy apiKey = true) :
    (POST apiKey up1 cache t1 b1).upstreamCalled = true ∧
    (POST apiKey up2 (POST apiKey up1 cache t1 b1).cache t2 b2).upstreamCalled = true ∧
    (POST apiKey up2 (POST apiKey up1 cache t1 b1).cache t2 b2).resp =
      mapProviderResponse up2 := by
  have h1 := checkRateLimit_none cache e1 1 86400000 t1 hfresh1
  have hfirst : POST apiKey up1 cache t1 b1 =
      ⟨mapProviderResponse up1, cache.set e1 ⟨1, t1⟩, true,
        some (buildSubscriberData e1 b1.name b1.interests)⟩ := by
    unfold POST
    rw [hws1, he1]
    simp [hst1, hne1, hreg1, hspam1, hname1, h1, hkey]
  have hfresh2' : (cache.set e1 ⟨1, t1⟩) e2 = none := by
    rw [RLCache.set_other _ _ _ _ hne]
    exact hfresh2
  have h2 := checkRateLimit_none _ e2 1 86400000 t2 hfresh2'
  have hsecond : POST apiKey up2 (cache.set e1 ⟨1, t1⟩) t2 b2 =
      ⟨mapProviderResponse up2, (cache.set e1 ⟨1, t1⟩).set e2 ⟨1, t2⟩, true,
        some (buildSubscriberData e2 b2.name b2.interests)⟩ := by
    unfold POST
    rw [hws2, he2]
    simp [hst2, hne2, hreg2, hspam2, hname2, h2, hkey]
  simp [hfirst, hsecond]

/-- Witness for the amended C2 theorem on the case-variant pair itself. -/
theorem rateLimit_keyed_by_raw_email_witness :
    (POST (some "key") .fetchThrew RLCache.empty 0
        ⟨some "Ab@cd.ef", none, none, none, some 3000⟩).upstreamCalled = true ∧
    (POST (some "key") .fetchThrew
        (POST (some "key") .fetchThrew RLCache.empty 0
          ⟨some "Ab@cd.ef", none, none, none, some 3000⟩).cache 1
        ⟨some "ab@cd.ef", none, none, none, some 3000⟩).upstreamCalled = true ∧
    (POST (some "key") .fetchThrew
        (POST (some "key") .fetchThrew RLCache.empty 0
          ⟨some "Ab@cd.ef", none, none, none, some 3000⟩).cache 1
        ⟨some "ab@cd.ef", none, none, none, some 3000⟩).resp =
      mapProviderResponse .fetchThrew :=
  rateLimit_keyed_by_raw_email (some "key") .fetchThrew .fetchThrew RLCache.empty 0 1
    ⟨some "Ab@cd.ef", none, none, none, some 3000⟩
    ⟨some "ab@cd.ef", none, none, none, some 3000⟩
    "Ab@cd.ef" "ab@cd.ef"
    rfl rfl rfl (by decide) (by decide) (by decide) rfl
    rfl rfl rfl (by decide) (by decide) (by decide) rfl
    (by decide) rfl rfl rfl

/-! ### Provider-response mapping (claim C8) -/

/-- C8 counterexample: a JSON-parse failure of the provider response does not
produce a generic 500.  On a non-2xx response whose body fails to parse, the
handler substitutes `{message: 'Failed to parse response'}` and returns that
text under the provider's status (here 422), not 500. -/
theorem parse_failure_not_500_counterexample :
    mapProviderResponse (.responded 422 none) =
      ⟨422, .errorMsg "Subscription failed: Failed to parse response"⟩ ∧
    (mapProviderResponse (.responded 422 none)).status ≠ 500 := by
  exact ⟨by decide, by decide⟩

/-- C8 amended: a 2xx provider status yields `{success: true}`; a non-2xx
status yields the provider's truthy `message` when present, else
status-specific text for 401/429/422 (`errors` passthrough or
`'Validation error'` for 422), else `'Unknown error'`, all under the
provider's status code; a rejected `fetch` yields a constant generic 500
network error; and a JSON-parse failure of the provider body substitutes
`'Failed to parse response'` while keeping the status mapping. -/
theorem mapProviderResponse_behaviour :
    (∀ (status : Nat) (parsed : Option ProviderData), 200 ≤ status → status ≤ 299 →
      mapProviderResponse (.responded status parsed) = ⟨200, .success⟩) ∧
    (∀ (status : Nat) (d : ProviderData) (m : String),
      ¬(200 ≤ status ∧ status ≤ 299) → d.message = some m → m ≠ "" →
      mapProviderResponse (.responded status (some d)) =
        ⟨status, .errorMsg ("Subscription failed: " ++ m)⟩) ∧
    (∀ d : ProviderData, d.message = none ∨ d.message = some "" →
      mapProviderResponse (.responded 401 (some d)) =
        ⟨401, .errorMsg "Subscription failed: Invalid API key"⟩) ∧
    (∀ d : ProviderData, d.message = none ∨ d.message = some "" →
      mapProviderResponse (.responded 429 (some d)) =
        ⟨429, .errorMsg "Subscription failed: Rate limit exceeded"⟩) ∧
    (∀ (d : ProviderData) (e : String),
      d.message = none ∨ d.message = some "" → d.errors = some e →
      mapProviderResponse (.responded 422 (some d)) =
        ⟨422, .errorMsg ("Subscription failed: " ++ e)⟩) ∧
    (∀ d : ProviderData, d.message = none ∨ d.message = some "" → d.errors = none →
      mapProviderResponse (.responded 422 (some d)) =
        ⟨422, .errorMsg "Subscription failed: Validation error"⟩) ∧
    (∀ (status : Nat) (d : ProviderData), ¬(200 ≤ status ∧ status ≤ 299) →
      d.message = none ∨ d.message = some "" →
      status ≠ 401 → status ≠ 429 → status ≠ 422 →
      mapProviderResponse (.responded status (some d)) =
        ⟨status, .errorMsg "Subscription failed: Unknown error"⟩) ∧
    (∀ status : Nat, ¬(200 ≤ status ∧ status ≤ 299) →
      mapProviderResponse (.responded status none) =
        ⟨status, .errorMsg "Subscription failed: Failed to parse response"⟩) ∧
    mapProviderResponse .fetchThrew =
      ⟨500, .errorMsg "Network error. Please try again later."⟩ := by
  refine ⟨?_, ?_, ?_, ?_, ?_, ?_, ?_, ?_, rfl⟩
  · intro status parsed h1 h2
    simp only [mapProviderResponse]
    rw [if_pos ⟨h1, h2⟩]
  · intro status d m hrange hm hne
    simp only [mapProviderResponse]
    rw [if_neg hrange]
    simp [providerErrorMessage, hm, hne]
  · rintro d (hm | hm) <;>
      simp [mapProviderResponse, providerErrorMessage,
        providerErrorMessage.providerFallbackMessage, hm]
  · rintro d (hm | hm) <;>
      simp [mapProviderResponse, providerErrorMessage,
        providerErrorMessage.providerFallbackMessage, hm]
  · rintro d e (hm | hm) he <;>
      simp [mapProviderResponse, providerErrorMessage,
        providerErrorMessage.providerFallbackMessage, hm, he]
  · rintro d (hm | hm) he <;>
      simp [mapProviderResponse, providerErrorMessage,
        providerErrorMessage.providerFallbackMessage, hm, he]
  · rintro status d hrange (hm | hm) h401 h429 h422 <;>
      simp [mapProviderResponse, providerErrorMessage,
        providerErrorMessage.providerFallbackMessage, hm, hrange, h401, h429, h422]
  · intro status hrange
    simp only [mapProviderResponse]
    rw [if_neg hrange]
    rfl

/-- Witness for the C8 behaviour theorem across all nine branches. -/
theorem mapProviderResponse_behaviour_witness :
    mapProviderResponse (.responded 201 none) = ⟨200, .success⟩ ∧
    mapProviderResponse (.responded 400 (some ⟨some "Bad subscriber", none⟩)) =
      ⟨400, .errorMsg "Subscription failed: Bad subscriber"⟩ ∧
    mapProviderResponse (.responded 401 (some ⟨none, none⟩)) =
      ⟨401, .errorMsg "Subscription failed: Invalid API key"⟩ ∧
    mapProviderResponse (.responded 429 (some ⟨none, none⟩)) =
      ⟨429, .errorMsg "Subscription failed: Rate limit exceeded"⟩ ∧
    mapProviderResponse (.responded 422 (some ⟨none, some "[1]"⟩)) =
      ⟨422, .errorMsg "Subscription failed: [1]"⟩ ∧
    mapProviderResponse (.responded 422 (some ⟨none, none⟩)) =
      ⟨422, .errorMsg "Subscription failed: Validation error"⟩ ∧
    mapProviderResponse (.responded 500 (some ⟨none, none⟩)) =
      ⟨500, .errorMsg "Subscription failed: Unknown error"⟩ ∧
    mapProviderResponse (.responded 404 none) =
      ⟨404, .errorMsg "Subscription failed: Failed to parse response"⟩ ∧
    mapProviderResponse .fetchThrew =
      ⟨500, .errorMsg "Network error. Please try again later."⟩ := by
  obtain ⟨h1, h2, h3, h4, h5, h6, h7, h8, h9⟩ := mapProviderResponse_behaviour
  exact ⟨h1 201 none (by norm_num) (by norm_num),
         h2 400 ⟨some "Bad subscriber", none⟩ "Bad subscriber" (by norm_num) rfl
           (by decide),
         h3 ⟨none, none⟩ (Or.inl rfl), h4 ⟨none, none⟩ (Or.inl rfl),
         h5 ⟨none, some "[1]"⟩ "[1]" (Or.inl rfl) rfl,
         h6 ⟨none, none⟩ (Or.inl rfl) rfl,
         h7 500 ⟨none, none⟩ (by norm_num) (Or.inl rfl) (by norm_num) (by norm_num)
           (by norm_num),
         h8 404 (by norm_num), h9⟩

/-! ### The advanced email validator at the `standard` level (claim C4) -/

/-- ASCII letter or digit (`[a-zA-Z0-9]`). -/
def isAsciiAlphaNum (c : Char) : Bool :=
  (48 ≤ c.toNat && c.toNat ≤ 57) || (65 ≤ c.toNat && c.toNat ≤ 90) ||
    (97 ≤ c.toNat && c.toNat ≤ 122)

/-- Code points of the specials in the standard pattern's local-part class
`[a-zA-Z0-9.!#$%&'*+/=?^_`{|}~-]` (dot, bang, hash, dollar, percent,
ampersand, quote, star, plus, slash, equals, question mark, caret,
underscore, backtick, braces, pipe, tilde, hyphen). -/
def stdLocalSpecialVals : List Nat :=
  [46, 33, 35, 36, 37, 38, 39, 42, 43, 47, 61, 63, 94, 95, 96, 123, 124, 125, 126, 45]

/-- A character admitted in the standard pattern's local part. -/
def isStdLocalChar (c : Char) : Bool :=
  isAsciiAlphaNum c || stdLocalSpecialVals.contains c.toNat

/-- One domain label of the standard pattern,
`[a-zA-Z0-9](?:[a-zA-Z0-9-]{0,61}[a-zA-Z0-9])?`: 1–63 characters, first and
last alphanumeric, interior alphanumeric or hyphen. -/
def isLabel (l : List Char) : Bool :=
  (!l.isEmpty) && l.length ≤ 63 &&
    (match l.head? with
     | some c => isAsciiAlphaNum c
     | none => false) &&
    (match l.getLast? with
     | some c => isAsciiAlphaNum c
     | none => false) &&
    l.all (fun c => isAsciiAlphaNum c || c == '-')

/-- `EMAIL_PATTERNS.standard`: local part of one or more local-class
characters (which exclude `@`), an `@`, then one or more dot-separated valid
labels.  Splitting at `@` and `.` is exact because neither class admits the
separator. -/
def stdPattern (s : List Char) : Bool :=
  match splitOnChar '@' s with
  | [l, d] => (!l.isEmpty) && l.all isStdLocalChar && (splitOnChar '.' d).all isLabel
  | _ => false

/-- `normalized.includes('..')`. -/
def containsDotDot : List Char → Bool
  | [] => false
  | [_] => false
  | a :: b :: rest => ((a == '.') && (b == '.')) || containsDotDot (b :: rest)

/-- `String.prototype.lastIndexOf` for a single character. -/
def lastIdxOf (c : Char) : List Char → Option Nat
  | [] => none
  | a :: rest =>
      match lastIdxOf c rest with
      | some i => some (i + 1)
      | none => if a = c then some 0 else none

/-- The `isValid` verdict of `validateEmailAdvanced(email, {level: 'standard'})`
with all other options defaulted (`checkDisposable`/`detectSpam` off, no
domain lists, `maxLength` 254): trim; reject empty or over-length input;
lowercase; reject a standard-pattern mismatch; split at the last `@`; reject
an empty or over-64 local part, an empty or over-253 domain, and consecutive
dots; otherwise accept.  (The spam, disposable and strict/paranoid branches
are disabled at this level and the whitelist/blacklist are empty.) -/
def validateEmailStandard (email : String) : Bool :=
  let trimmedEmail := jsTrim email.toList
  if trimmedEmail.isEmpty then false
  else if 254 < trimmedEmail.length then false
  else
    let normalized := trimmedEmail.map lowerChar
    if !(stdPattern normalized) then false
    else
      match lastIdxOf '@' normalized with
      | none => false
      | some atIndex =>
          let localPart := normalized.take atIndex
          let domainPart := normalized.drop (atIndex + 1)
          if localPart.isEmpty then false
          else if 64 < localPart.length then false
          else if domainPart.isEmpty then false
          else if 253 < domainPart.length then false
          else if containsDotDot normalized then false
          else true

lemma splitOnChar_ne_nil (sep : Char) : ∀ l, splitOnChar sep l ≠ []
  | [] => by simp [splitOnChar]
  | c :: rest => by
      unfold splitOnChar
      by_cases h : c = sep
      · simp [h]
      · simp only [h, if_false]
        cases hs : splitOnChar sep rest with
        | nil => simp
        | cons p ps => simp

/-- Join parts back with the separator: inverse of `splitOnChar`. -/
def joinSep (sep : Char) : List (List Char) → List Char
  | [] => []
  | [p] => p
  | p :: ps => p ++ sep :: joinSep sep ps

lemma joinSep_splitOnChar (sep : Char) : ∀ l, joinSep sep (splitOnChar sep l) = l
  | [] => rfl
  | c :: rest => by
      unfold splitOnChar
      by_cases h : c = sep
      · subst h
        simp only [if_pos rfl]
        cases hs : splitOnChar c rest with
        | nil => exact absurd hs (splitOnChar_ne_nil c rest)
        | cons p ps =>
            have hj := joinSep_splitOnChar c rest
            rw [hs] at hj
            cases ps with
            | nil => simpa [joinSep] using hj
            | cons q qs => simpa [joinSep] using hj
      · simp only [h, if_false]
        cases hs : splitOnChar sep rest with
        | nil => exact absurd hs (splitOnChar_ne_nil sep rest)
        | cons p ps =>
            have hj := joinSep_splitOnChar sep rest
            rw [hs] at hj
            cases ps with
            | nil => simpa [joinSep] using hj
            | cons q qs => simpa [joinSep] using hj

lemma splitOnChar_parts_not_mem (sep : Char) :
    ∀ l p, p ∈ splitOnChar sep l → sep ∉ p
  | [], p, hp => by
      simp [splitOnChar] at hp
      simp [hp]
  | c :: rest, p, hp => by
      unfold splitOnChar at hp
      by_cases h : c = sep
      · rw [if_pos h] at hp
        rcases List.mem_cons.mp hp with hp | hp
        · simp [hp]
        · exact splitOnChar_parts_not_mem sep rest p hp
      · rw [if_neg h] at hp
        cases hs : splitOnChar sep rest with
        | nil => exact absurd hs (splitOnChar_ne_nil sep rest)
        | cons q qs =>
            rw [hs] at hp
            rcases List.mem_cons.mp hp with hp | hp
            · subst hp
              intro hmem
              rcases List.mem_cons.mp hmem with hmem | hmem
              · exact h hmem.symm
              · exact splitOnChar_parts_not_mem sep rest q
                  (hs ▸ List.mem_cons_self q qs) hmem
            · exact splitOnChar_parts_not_mem sep rest p
                (hs ▸ List.mem_cons_of_mem q hp)

lemma splitOnChar_two (sep : Char) (l p q : List Char)
    (h : splitOnChar sep l = [p, q]) :
    l = p ++ sep :: q ∧ sep ∉ p ∧ sep ∉ q := by
  have hj := joinSep_splitOnChar sep l
  rw [h] at hj
  refine ⟨by simpa [joinSep] using hj.symm, ?_, ?_⟩
  · exact splitOnChar_parts_not_mem sep l p (by rw [h]; simp)
  · exact splitOnChar_parts_not_mem sep l q (by rw [h]; simp)

lemma lastIdxOf_none (c : Char) : ∀ l, c ∉ l → lastIdxOf c l = none
  | [], _ => rfl
  | a :: rest, h => by
      have h1 : c ∉ rest := fun hm => h (List.mem_cons_of_mem a hm)
      have h2 : ¬ (a = c) := by
        intro he
        exact h (by rw [he]; exact List.mem_cons_self c rest)
      simp only [lastIdxOf]
      rw [lastIdxOf_none c rest h1, if_neg h2]

lemma lastIdxOf_append (c : Char) (d : List Char) (hd : c ∉ d) :
    ∀ l, lastIdxOf c (l ++ c :: d) = some l.length
  | [] => by
      have h0 : lastIdxOf c (c :: d) = some 0 := by
        simp only [lastIdxOf]
        rw [lastIdxOf_none c d hd]
        simp
      simpa using h0
  | a :: l => by
      have ih := lastIdxOf_append c d hd l
      have hcons : (a :: l) ++ c :: d = a :: (l ++ c :: d) := by simp
      rw [hcons]
      simp only [lastIdxOf]
      rw [ih]
      simp

/-- Unpack a successful `stdPattern` match. -/
lemma stdPattern_decomp (n : List Char) (h : stdPattern n = true) :
    ∃ l d, splitOnChar '@' n = [l, d] ∧ l ≠ [] ∧
      (splitOnChar '.' d).all isLabel = true := by
  unfold stdPattern at h
  cases hs : splitOnChar '@' n with
  | nil => rw [hs] at h; simp at h
  | cons p ps =>
      cases ps with
      | nil => rw [hs] at h; simp at h
      | cons q qs =>
          cases qs with
          | nil =>
              rw [hs] at h
              simp only [Bool.and_eq_true, Bool.not_eq_true'] at h
              refine ⟨p, q, rfl, ?_, h.2⟩
              intro hp
              subst hp
              simp at h
          | cons r rs => rw [hs] at h; simp at h

lemma jsTrim_subset (l : List Char) : ∀ c ∈ jsTrim l, c ∈ l := by
  intro c hc
  unfold jsTrim at hc
  rw [List.mem_reverse] at hc
  have h1 : c ∈ (l.dropWhile jsWhitespace).reverse :=
    (List.dropWhile_sublist _).subset hc
  rw [List.mem_reverse] at h1
  exact (List.dropWhile_sublist _).subset h1

lemma lowerChar_toNat (c : Char) :
    (lowerChar c).toNat =
      if 65 ≤ c.toNat ∧ c.toNat ≤ 90 then c.toNat + 32 else c.toNat := by
  unfold lowerChar
  split
  · next h =>
      have hv : (c.toNat + 32).isValidChar := Or.inl (by omega)
      unfold Char.ofNat
      rw [dif_pos hv]
      rfl
  · rfl

lemma lowerChar_eq_atSign (c : Char) (h : lowerChar c = '@') : c = '@' := by
  have ht : (lowerChar c).toNat = 64 := by rw [h]; rfl
  rw [lowerChar_toNat] at ht
  by_cases hc : 65 ≤ c.toNat ∧ c.toNat ≤ 90
  · rw [if_pos hc] at ht
    omega
  · rw [if_neg hc] at ht
    have hco := Char.ofNat_toNat c
    rw [ht] at hco
    exact hco.symm

/-- C4 counterexample: at the `standard` level the claimed boundary is wrong
in both directions.  `a..b@cd` matches the standard pattern yet is rejected
(by the later consecutive-dots check), and `a@b` — whose domain has no dot —
matches the standard pattern (its domain quantifier admits a single label)
and is accepted. -/
theorem validateEmail_standard_counterexample :
    (stdPattern ("a..b@cd".toList) = true ∧ validateEmailStandard "a..b@cd" = false) ∧
    (stdPattern ("a@b".toList) = true ∧ validateEmailStandard "a@b" = true) := by
  exact ⟨⟨by decide, by decide⟩, ⟨by decide, by decide⟩⟩

/-- C4 amended: at the `standard` level, every string without `@` is rejected;
and a string whose trimmed form is within the 254-character limit, whose
trimmed lowercased form matches the standard pattern, whose local part (up to
the last `@`) is at most 64 characters, and which has no consecutive dots, is
accepted.  (The standard pattern does not require a dot in the domain, and
pattern-matching strings can still be rejected by the dot/length checks.) -/
theorem validateEmail_standard_amended :
    (∀ email : String, '@' ∉ email.toList → validateEmailStandard email = false) ∧
    (∀ email : String,
      (jsTrim email.toList).length ≤ 254 →
      stdPattern ((jsTrim email.toList).map lowerChar) = true →
      (∀ i, lastIdxOf '@' ((jsTrim email.toList).map lowerChar) = some i → i ≤ 64) →
      containsDotDot ((jsTrim email.toList).map lowerChar) = false →
      validateEmailStandard email = true) := by
  constructor
  · intro email hno
    have hstd : stdPattern ((jsTrim email.toList).map lowerChar) = false := by
      cases hb : stdPattern ((jsTrim email.toList).map lowerChar)
      · rfl
      · exfalso
        obtain ⟨l, d, hsplit, -, -⟩ := stdPattern_decomp _ hb
        obtain ⟨heq, -, -⟩ := splitOnChar_two '@' _ l d hsplit
        have hmem : '@' ∈ (jsTrim email.toList).map lowerChar := by
          rw [heq]
          simp
        rw [List.mem_map] at hmem
        obtain ⟨c, hc, hlc⟩ := hmem
        have hca : c = '@' := lowerChar_eq_atSign c hlc
        subst hca
        exact hno (jsTrim_subset _ _ hc)
    simp only [validateEmailStandard]
    by_cases hA : (jsTrim email.toList).isEmpty = true
    · rw [if_pos hA]
    · rw [if_neg hA]
      by_cases hB : 254 < (jsTrim email.toList).length
      · rw [if_pos hB]
      · rw [if_neg hB]
        rw [hstd]
        rw [if_pos (by decide : (!false) = true)]
  · intro email h254 hstd hloc hdd
    obtain ⟨l, d, hsplit, hlne, hlab⟩ := stdPattern_decomp _ hstd
    obtain ⟨heq, hnl, hnd⟩ := splitOnChar_two '@' _ l d hsplit
    have hat : lastIdxOf '@' ((jsTrim email.toList).map lowerChar) = some l.length := by
      rw [heq]
      exact lastIdxOf_append '@' d hnd l
    have hi64 : l.length ≤ 64 := hloc l.length hat
    have hdne : d ≠ [] := by
      intro hde
      subst hde
      simp [splitOnChar, isLabel] at hlab
    have hlpos : 1 ≤ l.length := List.length_pos.mpr hlne
    have hsum : l.length + 1 + d.length ≤ 254 := by
      have hlen := congrArg List.length heq
      rw [List.length_map, List.length_append, List.length_cons] at hlen
      omega
    have htne : ¬ ((jsTrim email.toList).isEmpty = true) := by
      intro hte
      rw [List.isEmpty_iff] at hte
      rw [hte] at heq
      simp at heq
    have htake : ((jsTrim email.toList).map lowerChar).take l.length = l := by
      rw [heq]
      exact List.take_left l ('@' :: d)
    have hdrop : ((jsTrim email.toList).map lowerChar).drop (l.length + 1) = d := by
      rw [heq]
      have h1 : l ++ '@' :: d = (l ++ ['@']) ++ d := by simp
      have h2 : l.length + 1 = (l ++ ['@']).length := by simp
      rw [h1, h2]
      exact List.drop_left _ _
    have h254n : ¬ (254 < (jsTrim email.toList).length) := by omega
    have h64n : ¬ (64 < l.length) := by omega
    have h253n : ¬ (253 < d.length) := by omega
    have hlE : l.isEmpty = false := by
      rw [List.isEmpty_eq_false]
      exact hlne
    have hdE : d.isEmpty = false := by
      rw [List.isEmpty_eq_false]
      exact hdne
    simp only [validateEmailStandard]
    rw [if_neg htne, if_neg h254n, hstd]
    rw [if_neg (by decide : ¬ ((!true) = true))]
    rw [hat]
    simp only [htake, hdrop, hlE, hdE, hdd, Bool.false_eq_true, if_false]
    rw [if_neg h64n, if_neg h253n]

/-- Witness for the amended C4 theorem: a string without `@` is rejected and a
well-formed (space-padded, mixed-case) address is accepted. -/
theorem validateEmail_standard_amended_witness :
    validateEmailStandard "abcd" = false ∧ validateEmailStandard " A@b.cd" = true := by
  obtain ⟨h1, h2⟩ := validateEmail_standard_amended
  refine ⟨h1 "abcd" (by decide), h2 " A@b.cd" (by decide) (by decide) ?_ (by decide)⟩
  intro i hi
  have hval : lastIdxOf '@' ((jsTrim (" A@b.cd".toList)).map lowerChar) = some 1 := by
    decide
  rw [hval] at hi
  have := Option.some.inj hi
  omega
